import Mathlib

/-!
Shallow embedding of the voxel-sculptor core (shape rasterizer in
`src/shapes.rs`, mesh exporter in `src/export.rs`, and the divergent
duplicate rasterizer inside `src/main.rs`), together with proofs of the
specification claims.

Modelling conventions:
* `u32` dimensions are modelled as `ℕ`; the voxel coordinates produced by
  `x as i32` are modelled as `ℤ` via `Int.ofNat`, which agrees with the
  Rust cast for every value that can actually arise here (the cast only
  wraps above `2^31`, far outside the `[0, 32]` dimension range the
  application admits).
* `f32` arithmetic: the ellipse inclusion tests are modelled by exact
  rational arithmetic (`ℚ`); every fact proved about them is decided far
  from rounding boundaries, so the idealisation is faithful where it is
  used, and the exporter's coordinates (halves and small integers) are
  exactly representable.  The SquarePyramid half-extent computation ends
  in a ceiling, which IS sensitive to `f32` rounding, so it is modelled
  bit-exactly: round-to-nearest-even binary32 on significand/exponent
  pairs (`rneF32`), valid on the program's admissible domain (operands
  either zero or of magnitude in [2^-32, 2^32), and integer inputs below
  2^24 so the `as f32` casts are exact).
* The exporter writes to a file through `writeln!`; we model the produced
  CONTENT as the list of emitted lines (the I/O wrapper itself carries no
  algorithmic content).
-/

/-- Shape kinds, from `ShapeType` in `src/shapes.rs` (same constructor
order as the Rust enum). -/
inductive ShapeType where
  | Circle
  | Sphere
  | Cube
  | SquarePyramid
  | Cone
  | Cylinder
deriving DecidableEq, Repr

/-- Shape specification, from `struct Shape` in `src/shapes.rs`. -/
structure Shape where
  shape_type : ShapeType
  width : ℕ
  height : ℕ
  depth : ℕ
deriving DecidableEq, Repr

/-- Voxel model, from `struct VoxelData` in `src/shapes.rs`. -/
structure VoxelData where
  shape : Shape
  voxels : List (ℤ × ℤ × ℤ)
deriving DecidableEq, Repr

/-- The canonical enumeration of the `w × h × d` grid in the nested-loop
order used by every generator in `src/shapes.rs`: outer loop `x`, then
`y`, inner loop `z`. -/
def gridCells (w h d : ℕ) : List (ℕ × ℕ × ℕ) :=
  (List.range w).flatMap fun x =>
    (List.range h).flatMap fun y =>
      (List.range d).map fun z => (x, y, z)

/-- The `x as i32` / `y as i32` / `z as i32` casts used when pushing a
voxel in `src/shapes.rs` (lossless on the admissible range). -/
def castCell (c : ℕ × ℕ × ℕ) : ℤ × ℤ × ℤ :=
  ((c.1 : ℤ), (c.2.1 : ℤ), (c.2.2 : ℤ))

/-- Inclusion test of `generate_sphere` (`src/shapes.rs` lines 71-93):
ellipsoid test at the grid index, center `(w-1)/2` etc., radii `w/2` etc. -/
def spherePred (s : Shape) (x y z : ℕ) : Bool :=
  let center_x : ℚ := ((s.width : ℚ) - 1) / 2
  let center_y : ℚ := ((s.height : ℚ) - 1) / 2
  let center_z : ℚ := ((s.depth : ℚ) - 1) / 2
  let radius_x : ℚ := (s.width : ℚ) / 2
  let radius_y : ℚ := (s.height : ℚ) / 2
  let radius_z : ℚ := (s.depth : ℚ) / 2
  let dx : ℚ := ((x : ℚ) - center_x) / radius_x
  let dy : ℚ := ((y : ℚ) - center_y) / radius_y
  let dz : ℚ := ((z : ℚ) - center_z) / radius_z
  decide (dx * dx + dy * dy + dz * dz ≤ 1)

/-- Inclusion test shared by `generate_circle` and `generate_cylinder`
(`src/shapes.rs` lines 95-135): ellipse test on the x/z axes only. -/
def circleXZPred (s : Shape) (x z : ℕ) : Bool :=
  let center_x : ℚ := ((s.width : ℚ) - 1) / 2
  let center_z : ℚ := ((s.depth : ℚ) - 1) / 2
  let radius_x : ℚ := (s.width : ℚ) / 2
  let radius_z : ℚ := (s.depth : ℚ) / 2
  let dx : ℚ := ((x : ℚ) - center_x) / radius_x
  let dz : ℚ := ((z : ℚ) - center_z) / radius_z
  decide (dx * dx + dz * dz ≤ 1)

/-- Inclusion test of `generate_cone` (`src/shapes.rs` lines 137-158):
x/z ellipse test against the squared height factor `1 - y/height`. -/
def conePred (s : Shape) (x y z : ℕ) : Bool :=
  let center_x : ℚ := ((s.width : ℚ) - 1) / 2
  let center_z : ℚ := ((s.depth : ℚ) - 1) / 2
  let radius_x : ℚ := (s.width : ℚ) / 2
  let radius_z : ℚ := (s.depth : ℚ) / 2
  let dx : ℚ := ((x : ℚ) - center_x) / radius_x
  let dz : ℚ := ((z : ℚ) - center_z) / radius_z
  let height_factor : ℚ := 1 - (y : ℚ) / (s.height : ℚ)
  decide (dx * dx + dz * dz ≤ height_factor * height_factor)

/-- Number of binary digits of `n`, i.e. `⌊log2 n⌋ + 1` for `n ≥ 1` and
0 for `n = 0`; structural fuel recursion, exact for `n < 2^128`. -/
def bitLenAux : ℕ → ℕ → ℕ
  | 0, _ => 0
  | fuel + 1, n => if n = 0 then 0 else bitLenAux fuel (n / 2) + 1

/-- Bit length of a natural number (exact below `2^128`, far above every
value the embedding produces). -/
def bitLen (n : ℕ) : ℕ := bitLenAux 128 n

/-- Round the positive rational `n / d` to the nearest binary32 value
(round-to-nearest, ties to even), returned as a significand/exponent
pair `(m, e)` with value `m * 2^e` and `2^23 ≤ m ≤ 2^24`.  The exponent
is recovered from the bit length of `n * 2^32 / d`, so the result is
exact for all values in `[2^-32, 2^32)` — the whole range the pyramid
pipeline can produce for admissible dimensions.  Subnormals and overflow
are outside that range and never arise here. -/
def roundSig (n d : ℕ) : ℕ × ℤ :=
  let e : ℤ := (bitLen (n * 2 ^ 32 / d) : ℤ) - 33
  let s : ℤ := 23 - e
  let N : ℕ := n * 2 ^ s.toNat
  let D : ℕ := d * 2 ^ (-s).toNat
  let q : ℕ := N / D
  let r : ℕ := N % D
  let m : ℕ := if 2 * r < D then q else if D < 2 * r then q + 1
    else if q % 2 = 0 then q else q + 1
  (m, e - 23)

/-- Signed binary32 rounding of `n / d` (round-to-nearest-even is
symmetric under negation). -/
def rneF32 (n : ℤ) (d : ℕ) : ℤ × ℤ :=
  if n = 0 then (0, 0)
  else if 0 < n then
    let p := roundSig n.toNat d
    ((p.1 : ℤ), p.2)
  else
    let p := roundSig (-n).toNat d
    (-(p.1 : ℤ), p.2)

/-- `⌈m / 2^k⌉` over the integers, computed with natural division (for a
negative numerator the ceiling is the truncation `-(|m| / 2^k)`). -/
def ceilPow (m : ℤ) (k : ℕ) : ℤ :=
  if 0 ≤ m then ((m.toNat + 2 ^ k - 1) / 2 ^ k : ℕ) else -((m.natAbs / 2 ^ k : ℕ))

/-- The half-extent `(n as f32 * height_factor / 2.0).ceil() as u32`
computed by `generate_square_pyramid` (`src/shapes.rs` lines 164-166),
for `n` the width or the depth, modelled bit-exactly in binary32:
`t = fl(y/h)` (the integer-to-f32 casts are exact below `2^24`),
`height_factor = fl(1 - t)` (the exact difference, then one rounding —
the semantics of the f32 subtraction), `p = fl(n * height_factor)`, then
the division by 2.0 (an exact exponent decrement in the normal range),
the exact f32 `ceil`, and the saturating `as u32` cast (`Int.toNat`). -/
def widthBound (n h y : ℕ) : ℕ :=
  let t := rneF32 (y : ℤ) h
  let k1 : ℕ := (-t.2).toNat
  let height_factor := rneF32 (2 ^ k1 - t.1 * 2 ^ (t.2 + k1).toNat) (2 ^ k1)
  let k2 : ℕ := (-height_factor.2).toNat
  let p := rneF32 ((n : ℤ) * height_factor.1 * 2 ^ (height_factor.2 + k2).toNat) (2 ^ k2)
  let q : ℤ × ℤ := (p.1, p.2 - 1)
  (if 0 ≤ q.2 then q.1 * 2 ^ q.2.toNat else ceilPow q.1 (-q.2).toNat).toNat

/-- Modelled from the spec's words (§4.1): the exact-rational reading
`width_bound = ceil(width * (1 - y/height) / 2)` of the same half-extent,
kept for comparison with the bit-exact `widthBound` of the source; the
two disagree, e.g. at `(n, h, y) = (12, 6, 5)`. -/
def widthBoundSpec (n h y : ℕ) : ℕ :=
  (⌈(n : ℚ) * (1 - (y : ℚ) / (h : ℚ)) / 2⌉).toNat

/-- Inclusion test of `generate_square_pyramid` (`src/shapes.rs` lines
160-178); `center_x.saturating_sub(width_bound)` is natural subtraction. -/
def squarePyramidPred (s : Shape) (x y z : ℕ) : Bool :=
  let width_bound := widthBound s.width s.height y
  let depth_bound := widthBound s.depth s.height y
  let center_x := s.width / 2
  let center_z := s.depth / 2
  decide (center_x - width_bound ≤ x ∧ x < center_x + width_bound ∧
          center_z - depth_bound ≤ z ∧ z < center_z + depth_bound)

/-- `generate_cube` (`src/shapes.rs` lines 61-69): every grid cell is
pushed, in loop order. -/
def generate_cube (s : Shape) : List (ℤ × ℤ × ℤ) :=
  (gridCells s.width s.height s.depth).map castCell

/-- `generate_sphere` (`src/shapes.rs` lines 71-93): the nested loops
push exactly the cells passing the ellipsoid test, in loop order. -/
def generate_sphere (s : Shape) : List (ℤ × ℤ × ℤ) :=
  ((gridCells s.width s.height s.depth).filter
    fun c => spherePred s c.1 c.2.1 c.2.2).map castCell

/-- `generate_circle` (`src/shapes.rs` lines 95-114): the y loop runs
over `0..1.min(height)`. -/
def generate_circle (s : Shape) : List (ℤ × ℤ × ℤ) :=
  ((gridCells s.width (min 1 s.height) s.depth).filter
    fun c => circleXZPred s c.1 c.2.2).map castCell

/-- `generate_cylinder` (`src/shapes.rs` lines 116-135). -/
def generate_cylinder (s : Shape) : List (ℤ × ℤ × ℤ) :=
  ((gridCells s.width s.height s.depth).filter
    fun c => circleXZPred s c.1 c.2.2).map castCell

/-- `generate_cone` (`src/shapes.rs` lines 137-158). -/
def generate_cone (s : Shape) : List (ℤ × ℤ × ℤ) :=
  ((gridCells s.width s.height s.depth).filter
    fun c => conePred s c.1 c.2.1 c.2.2).map castCell

/-- `generate_square_pyramid` (`src/shapes.rs` lines 160-178). -/
def generate_square_pyramid (s : Shape) : List (ℤ × ℤ × ℤ) :=
  ((gridCells s.width s.height s.depth).filter
    fun c => squarePyramidPred s c.1 c.2.1 c.2.2).map castCell

/-- `generate_shape` (`src/shapes.rs` lines 46-59): dispatch on the
shape kind. -/
def generate_shape (s : Shape) : List (ℤ × ℤ × ℤ) :=
  match s.shape_type with
  | ShapeType.Cube => generate_cube s
  | ShapeType.Sphere => generate_sphere s
  | ShapeType.Circle => generate_circle s
  | ShapeType.SquarePyramid => generate_square_pyramid s
  | ShapeType.Cone => generate_cone s
  | ShapeType.Cylinder => generate_cylinder s

/-- Variant name printed by the `{:?}` (derived `Debug`) formatting in
the export header (`src/export.rs` line 10). -/
def shapeTypeName : ShapeType → String
  | ShapeType.Circle => "Circle"
  | ShapeType.Sphere => "Sphere"
  | ShapeType.Cube => "Cube"
  | ShapeType.SquarePyramid => "SquarePyramid"
  | ShapeType.Cone => "Cone"
  | ShapeType.Cylinder => "Cylinder"

/-- Rendering of the `f32` coordinate values written by the exporter.
Every coordinate the exporter produces is an integer or a half-integer
(exactly representable in `f32`), and Rust's `Display` prints those as
the shortest decimal: `"3"`, `"-2"`, `"0.5"`, `"-0.5"`, `"2.5"`, ... -/
def fmtHalf (q : ℚ) : String :=
  if q.den = 1 then toString q.num
  else (if q < 0 then "-" else "") ++ toString (q.num.natAbs / 2) ++ ".5"

/-- One `v` line of the exporter (`src/export.rs` lines 26-33). -/
def vLine (p : ℚ × ℚ × ℚ) : String :=
  "v " ++ (fmtHalf p.1 ++ " " ++ fmtHalf p.2.1 ++ " " ++ fmtHalf p.2.2)

/-- One `f` line of the exporter (`src/export.rs` lines 37-58). -/
def fLine (t : ℕ × ℕ × ℕ) : String :=
  "f " ++ (toString t.1 ++ " " ++ toString t.2.1 ++ " " ++ toString t.2.2)

/-- The eight cube-corner offsets, in the exact emission order of
`src/export.rs` lines 26-33. -/
def vertexOffsets : List (ℚ × ℚ × ℚ) :=
  [(0, 0, 0), (1, 0, 0), (1, 0, 1), (0, 0, 1),
   (0, 1, 0), (1, 1, 0), (1, 1, 1), (0, 1, 1)]

/-- The centering offset `(width/2, height/2, depth/2)` subtracted from
every voxel coordinate (`src/export.rs` lines 20-22); it depends only on
the model's dimensions, not on the voxel. -/
def exportOffset (s : Shape) : ℚ × ℚ × ℚ :=
  ((s.width : ℚ) / 2, (s.height : ℚ) / 2, (s.depth : ℚ) / 2)

/-- The 8 vertex lines emitted for one voxel (`src/export.rs` lines
18-33): `x_adj = x - width/2` etc., then the eight corners in order. -/
def vertexLines (s : Shape) (v : ℤ × ℤ × ℤ) : List String :=
  let x_adj : ℚ := (v.1 : ℚ) - (exportOffset s).1
  let y_adj : ℚ := (v.2.1 : ℚ) - (exportOffset s).2.1
  let z_adj : ℚ := (v.2.2 : ℚ) - (exportOffset s).2.2
  vertexOffsets.map fun p => vLine (x_adj + p.1, y_adj + p.2.1, z_adj + p.2.2)

/-- The twelve face-index triples emitted for one voxel whose first
vertex has 1-based index `i` (`src/export.rs` lines 37-58): bottom, top,
front, back, left, right, two triangles each. -/
def faceTriples (i : ℕ) : List (ℕ × ℕ × ℕ) :=
  [(i, i + 1, i + 2), (i, i + 2, i + 3),
   (i + 4, i + 7, i + 6), (i + 4, i + 6, i + 5),
   (i, i + 4, i + 5), (i, i + 5, i + 1),
   (i + 3, i + 2, i + 6), (i + 3, i + 6, i + 7),
   (i, i + 3, i + 7), (i, i + 7, i + 4),
   (i + 1, i + 5, i + 6), (i + 1, i + 6, i + 2)]

/-- The 12 face lines emitted for one voxel with vertex base `i`. -/
def faceLines (i : ℕ) : List String :=
  (faceTriples i).map fLine

/-- All 20 lines emitted for one voxel: 8 `v` lines then 12 `f` lines,
exactly as the loop body of `src/export.rs` lines 18-60. -/
def voxelBlock (s : Shape) (i : ℕ) (v : ℤ × ℤ × ℤ) : List String :=
  vertexLines s v ++ faceLines i

/-- The exporter's main loop: `vertex_index` starts at 1 and advances by
8 per voxel (`src/export.rs` lines 16-61). -/
def exportGo (s : Shape) (i : ℕ) : List (ℤ × ℤ × ℤ) → List String
  | [] => []
  | v :: vs => voxelBlock s i v ++ exportGo s (i + 8) vs

/-- The three header comment lines (`src/export.rs` lines 9-14). -/
def headerLines (s : Shape) : List String :=
  ["# 3D Voxel Sculptor Export",
   "# Shape: " ++ shapeTypeName s.shape_type,
   "# Dimensions: " ++ (toString s.width ++ " x " ++ toString s.height ++
     " x " ++ toString s.depth)]

/-- `export_to_obj` (`src/export.rs` lines 5-64), modelled as the list of
lines written to the output file: the three header comments followed by
one 20-line block per voxel, in voxel order. -/
def export_to_obj (vd : VoxelData) : List String :=
  headerLines vd.shape ++ exportGo vd.shape 1 vd.voxels

/-- Inclusion decision of the Cone arm of `generate_shape_system` in
`src/main.rs` (lines 259-274): cell-center sampling `v = idx + 0.5`,
scale factor `max 0 (1 - vy/h)` applied to the radii, normalized offsets
guarded by the `> 0.01` threshold, and the `y_idx < height` check; the
`h <= 0` guard `continue`s (no spawn). -/
def mainConeIncl (w h d x y z : ℕ) : Bool :=
  if h = 0 then false else
  let wq : ℚ := (w : ℚ)
  let hq : ℚ := (h : ℚ)
  let dq : ℚ := (d : ℚ)
  let vx : ℚ := (x : ℚ) + 1 / 2
  let vy : ℚ := (y : ℚ) + 1 / 2
  let vz : ℚ := (z : ℚ) + 1 / 2
  let scale_factor : ℚ := max 0 (1 - vy / hq)
  let scaled_radius_x : ℚ := wq / 2 * scale_factor
  let scaled_radius_z : ℚ := dq / 2 * scale_factor
  let norm_x : ℚ := if scaled_radius_x > 1 / 100 then (vx - wq / 2) / scaled_radius_x else 0
  let norm_z : ℚ := if scaled_radius_z > 1 / 100 then (vz - dq / 2) / scaled_radius_z else 0
  decide (norm_x * norm_x + norm_z * norm_z ≤ 1) && decide (y < h)

/-! ### Grid enumeration lemmas -/

/-- Strict lexicographic order on natural grid cells: x slowest, z fastest. -/
def cellLtN (a b : ℕ × ℕ × ℕ) : Prop :=
  a.1 < b.1 ∨ (a.1 = b.1 ∧ (a.2.1 < b.2.1 ∨ (a.2.1 = b.2.1 ∧ a.2.2 < b.2.2)))

/-- Strict lexicographic order on emitted voxel triples. -/
def cellLtZ (a b : ℤ × ℤ × ℤ) : Prop :=
  a.1 < b.1 ∨ (a.1 = b.1 ∧ (a.2.1 < b.2.1 ∨ (a.2.1 = b.2.1 ∧ a.2.2 < b.2.2)))

theorem mem_gridCells {w h d x y z : ℕ} :
    (x, y, z) ∈ gridCells w h d ↔ x < w ∧ y < h ∧ z < d := by
  simp only [gridCells, List.mem_flatMap, List.mem_map, List.mem_range, Prod.mk.injEq]
  constructor
  · rintro ⟨a, ha, b, hb, c, hc, rfl, rfl, rfl⟩
    exact ⟨ha, hb, hc⟩
  · rintro ⟨hx, hy, hz⟩
    exact ⟨x, hx, y, hy, z, hz, rfl, rfl, rfl⟩

theorem mem_gridCells' {w h d : ℕ} {c : ℕ × ℕ × ℕ} :
    c ∈ gridCells w h d ↔ c.1 < w ∧ c.2.1 < h ∧ c.2.2 < d := by
  obtain ⟨x, y, z⟩ := c
  exact mem_gridCells

theorem length_gridCells (w h d : ℕ) : (gridCells w h d).length = w * h * d := by
  simp only [gridCells, List.length_flatMap, List.map_map, Function.comp_def,
    List.length_map, List.length_range, List.map_const', List.sum_replicate, smul_eq_mul]
  ring

theorem pairwise_zrow (x y d : ℕ) :
    List.Pairwise cellLtN ((List.range d).map fun z => (x, y, z)) := by
  rw [List.pairwise_map]
  exact (List.pairwise_lt_range d).imp fun hz => Or.inr ⟨rfl, Or.inr ⟨rfl, hz⟩⟩

theorem mem_yplane {x h d : ℕ} {c : ℕ × ℕ × ℕ}
    (hc : c ∈ (List.range h).flatMap fun y => (List.range d).map fun z => (x, y, z)) :
    c.1 = x ∧ c.2.1 < h ∧ c.2.2 < d := by
  simp only [List.mem_flatMap, List.mem_map, List.mem_range] at hc
  obtain ⟨y, hy, z, hz, rfl⟩ := hc
  exact ⟨rfl, hy, hz⟩

theorem pairwise_yplane (x h d : ℕ) :
    List.Pairwise cellLtN ((List.range h).flatMap fun y => (List.range d).map fun z => (x, y, z)) := by
  induction h with
  | zero => simp
  | succ n ih =>
    rw [List.range_succ, List.flatMap_append, List.pairwise_append]
    refine ⟨ih, by simpa using pairwise_zrow x n d, ?_⟩
    intro a ha b hb
    obtain ⟨hax, hay, -⟩ := mem_yplane ha
    simp only [List.flatMap_cons, List.flatMap_nil, List.append_nil, List.mem_map,
      List.mem_range] at hb
    obtain ⟨z, hz, rfl⟩ := hb
    exact Or.inr ⟨hax, Or.inl hay⟩

theorem pairwise_gridCells (w h d : ℕ) : List.Pairwise cellLtN (gridCells w h d) := by
  induction w with
  | zero => simp [gridCells]
  | succ n ih =>
    rw [gridCells, List.range_succ, List.flatMap_append, List.pairwise_append]
    refine ⟨ih, by simpa using pairwise_yplane n h d, ?_⟩
    intro a ha b hb
    have hax : a.1 < n := (mem_gridCells'.mp ha).1
    have hbx : b.1 = n := by
      simp only [List.flatMap_cons, List.flatMap_nil, List.append_nil] at hb
      exact (mem_yplane hb).1
    exact Or.inl (hbx ▸ hax)

theorem castCell_injective : Function.Injective castCell := by
  rintro ⟨a1, a2, a3⟩ ⟨b1, b2, b3⟩ hab
  simp only [castCell, Prod.mk.injEq] at hab
  obtain ⟨h1, h2, h3⟩ := hab
  exact Prod.ext (by exact_mod_cast h1) (Prod.ext (by exact_mod_cast h2) (by exact_mod_cast h3))

theorem cellLt_cast {a b : ℕ × ℕ × ℕ} (h : cellLtN a b) : cellLtZ (castCell a) (castCell b) := by
  obtain ⟨a1, a2, a3⟩ := a
  obtain ⟨b1, b2, b3⟩ := b
  simp only [cellLtN, cellLtZ, castCell] at h ⊢
  rcases h with h | ⟨h1, h | ⟨h2, h⟩⟩
  · exact Or.inl (by exact_mod_cast h)
  · exact Or.inr ⟨by exact_mod_cast h1, Or.inl (by exact_mod_cast h)⟩
  · exact Or.inr ⟨by exact_mod_cast h1, Or.inr ⟨by exact_mod_cast h2, by exact_mod_cast h⟩⟩

theorem cellLtZ_ne {a b : ℤ × ℤ × ℤ} (h : cellLtZ a b) : a ≠ b := by
  rintro rfl
  rcases h with h | ⟨-, h | ⟨-, h⟩⟩ <;> exact lt_irrefl _ h

theorem castGrid_pairwise (w h d : ℕ) :
    List.Pairwise cellLtZ ((gridCells w h d).map castCell) := by
  rw [List.pairwise_map]
  exact (pairwise_gridCells w h d).imp cellLt_cast

theorem nodup_gridCells (w h d : ℕ) : (gridCells w h d).Nodup :=
  (pairwise_gridCells w h d).imp fun h => by
    intro hab
    exact cellLtZ_ne (cellLt_cast h) (by rw [hab])

/-! ### Sublist lemmas -/

theorem flatMap_sublist_left {α β : Type} {l₁ l₂ : List α} (f : α → List β)
    (h : l₁.Sublist l₂) : (l₁.flatMap f).Sublist (l₂.flatMap f) := by
  induction h with
  | slnil => exact List.Sublist.refl _
  | cons a _ ih =>
    rw [List.flatMap_cons]
    exact ih.trans (List.sublist_append_right _ _)
  | cons₂ a _ ih =>
    rw [List.flatMap_cons, List.flatMap_cons]
    exact List.Sublist.append (List.Sublist.refl _) ih

theorem flatMap_sublist_right {α β : Type} {l : List α} {f g : α → List β}
    (h : ∀ a ∈ l, (f a).Sublist (g a)) : (l.flatMap f).Sublist (l.flatMap g) := by
  induction l with
  | nil => exact List.Sublist.refl _
  | cons a t ih =>
    rw [List.flatMap_cons, List.flatMap_cons]
    exact List.Sublist.append (h a (List.mem_cons_self a t))
      (ih fun b hb => h b (List.mem_cons_of_mem a hb))

theorem gridCells_sublist_of_height_le {w h h' d : ℕ} (hle : h' ≤ h) :
    (gridCells w h' d).Sublist (gridCells w h d) :=
  flatMap_sublist_right fun _ _ =>
    flatMap_sublist_left _ (List.range_sublist.mpr hle)

/-- Every generator output is a subsequence of the canonical grid
enumeration (cast to voxel triples). -/
theorem generate_shape_sublist (s : Shape) :
    (generate_shape s).Sublist ((gridCells s.width s.height s.depth).map castCell) := by
  rcases s with ⟨t, w, h, d⟩
  cases t
  case Cube => exact List.Sublist.refl _
  case Circle =>
    exact List.Sublist.map _ ((List.filter_sublist _).trans
      (gridCells_sublist_of_height_le (min_le_right 1 h)))
  all_goals exact List.Sublist.map _ (List.filter_sublist _)

theorem generate_shape_pairwise (s : Shape) :
    List.Pairwise cellLtZ (generate_shape s) :=
  (castGrid_pairwise s.width s.height s.depth).sublist (generate_shape_sublist s)

theorem generate_shape_nodup (s : Shape) : (generate_shape s).Nodup :=
  (generate_shape_pairwise s).imp fun h => cellLtZ_ne h

theorem generate_shape_mem_bounds {s : Shape} {t : ℤ × ℤ × ℤ}
    (ht : t ∈ generate_shape s) :
    0 ≤ t.1 ∧ t.1 < (s.width : ℤ) ∧ 0 ≤ t.2.1 ∧ t.2.1 < (s.height : ℤ) ∧
      0 ≤ t.2.2 ∧ t.2.2 < (s.depth : ℤ) := by
  have hmem : t ∈ (gridCells s.width s.height s.depth).map castCell :=
    (generate_shape_sublist s).subset ht
  obtain ⟨⟨x, y, z⟩, hc, rfl⟩ := List.mem_map.mp hmem
  obtain ⟨h1, h2, h3⟩ := mem_gridCells.mp hc
  simp only [castCell]
  exact ⟨by positivity, by exact_mod_cast h1, by positivity, by exact_mod_cast h2,
    by positivity, by exact_mod_cast h3⟩

/-! ### Export structure lemmas -/

theorem length_vertexLines (s : Shape) (v : ℤ × ℤ × ℤ) : (vertexLines s v).length = 8 := by
  simp [vertexLines, vertexOffsets]

theorem length_faceLines (i : ℕ) : (faceLines i).length = 12 := by
  simp [faceLines, faceTriples]

theorem length_voxelBlock (s : Shape) (i : ℕ) (v : ℤ × ℤ × ℤ) :
    (voxelBlock s i v).length = 20 := by
  simp [voxelBlock, length_vertexLines, length_faceLines]

theorem length_exportGo (s : Shape) (l : List (ℤ × ℤ × ℤ)) :
    ∀ i, (exportGo s i l).length = 20 * l.length := by
  induction l with
  | nil => intro i; simp [exportGo]
  | cons v vs ih =>
    intro i
    simp only [exportGo, List.length_append, length_voxelBlock, ih, List.length_cons]
    ring

theorem mem_vertexLines {s : Shape} {v : ℤ × ℤ × ℤ} {c : String}
    (hc : c ∈ vertexLines s v) : ∃ r, c = "v " ++ r := by
  simp only [vertexLines, List.mem_map] at hc
  obtain ⟨p, -, rfl⟩ := hc
  exact ⟨_, rfl⟩

theorem mem_faceLines {i : ℕ} {c : String} (hc : c ∈ faceLines i) :
    ∃ r, c = "f " ++ r := by
  simp only [faceLines, List.mem_map] at hc
  obtain ⟨t, -, rfl⟩ := hc
  exact ⟨_, rfl⟩

theorem exportGo_blocks (s : Shape) (l : List (ℤ × ℤ × ℤ)) :
    ∀ i, ∃ blocks : List (List String),
      exportGo s i l = blocks.flatten ∧ blocks.length = l.length ∧
      ∀ b ∈ blocks, ∃ j v, b = voxelBlock s j v := by
  induction l with
  | nil => exact fun i => ⟨[], rfl, rfl, by simp⟩
  | cons v vs ih =>
    intro i
    obtain ⟨blocks, h1, h2, h3⟩ := ih (i + 8)
    refine ⟨voxelBlock s i v :: blocks, ?_, by simp [h2], ?_⟩
    · simp [exportGo, List.flatten_cons, h1]
    · intro b hb
      rcases List.mem_cons.mp hb with rfl | hb
      · exact ⟨i, v, rfl⟩
      · exact h3 b hb

theorem exportGo_drop (s : Shape) (l : List (ℤ × ℤ × ℤ)) :
    ∀ k i, k < l.length →
      (exportGo s i l).drop (20 * k) =
        voxelBlock s (i + 8 * k) (l.getD k (0, 0, 0)) ++
          exportGo s (i + 8 * (k + 1)) (l.drop (k + 1)) := by
  induction l with
  | nil => intro k i hk; simp at hk
  | cons v vs ih =>
    intro k i hk
    cases k with
    | zero =>
      simp only [Nat.mul_zero, List.drop_zero, exportGo, List.getD_cons_zero, Nat.mul_one]
      rw [Nat.add_zero]
      simp [List.drop]
    | succ k =>
      have h20 : 20 * (k + 1) = (voxelBlock s i v).length + 20 * k := by
        rw [length_voxelBlock]; ring
      rw [exportGo, h20, List.drop_append, ih k (i + 8) (by simpa using hk),
        List.getD_cons_succ]
      have e1 : i + 8 + 8 * k = i + 8 * (k + 1) := by ring
      have e2 : i + 8 + 8 * (k + 1) = i + 8 * (k + 1 + 1) := by ring
      rw [e1, e2, List.drop_succ_cons]

/-! ### Claim theorems -/

/-- C1: for every Cube spec, `generate_shape` returns exactly
`width*height*depth` voxel triples, and every in-range grid cell appears
exactly once, so the result covers the full grid. -/
theorem C1_cube_full_grid (w h d : ℕ) :
    (generate_shape ⟨ShapeType.Cube, w, h, d⟩).length = w * h * d ∧
    ∀ x y z : ℕ, x < w → y < h → z < d →
      @List.count (ℤ × ℤ × ℤ) instBEqOfDecidableEq ((x : ℤ), (y : ℤ), (z : ℤ))
        (generate_shape ⟨ShapeType.Cube, w, h, d⟩) = 1 := by
  constructor
  · simp [generate_shape, generate_cube, length_gridCells]
  · intro x y z hx hy hz
    exact List.count_eq_one_of_mem
      ((nodup_gridCells w h d).map castCell_injective)
      (List.mem_map_of_mem _ (mem_gridCells.mpr ⟨hx, hy, hz⟩))

/-- C1 witness: concrete instance with the hypotheses discharged. -/
theorem C1_cube_full_grid_witness :
    (generate_shape ⟨ShapeType.Cube, 2, 2, 2⟩).length = 2 * 2 * 2 ∧
    @List.count (ℤ × ℤ × ℤ) instBEqOfDecidableEq ((1 : ℤ), (0 : ℤ), (1 : ℤ))
      (generate_shape ⟨ShapeType.Cube, 2, 2, 2⟩) = 1 :=
  ⟨(C1_cube_full_grid 2 2 2).1,
    (C1_cube_full_grid 2 2 2).2 1 0 1 (by decide) (by decide) (by decide)⟩

/-- C2: for every shape spec and every kind, every emitted triple lies in
the grid bounds and no triple occurs twice. -/
theorem C2_bounds_nodup (s : Shape) :
    (∀ t ∈ generate_shape s,
      0 ≤ t.1 ∧ t.1 < (s.width : ℤ) ∧ 0 ≤ t.2.1 ∧ t.2.1 < (s.height : ℤ) ∧
        0 ≤ t.2.2 ∧ t.2.2 < (s.depth : ℤ)) ∧
    (generate_shape s).Nodup :=
  ⟨fun _ ht => generate_shape_mem_bounds ht, generate_shape_nodup s⟩

/-- C2 witness: concrete member of a concrete cube, bounds evaluated. -/
theorem C2_bounds_nodup_witness :
    ((1 : ℤ), (1 : ℤ), (1 : ℤ)) ∈ generate_shape ⟨ShapeType.Cube, 2, 2, 2⟩ ∧
    (0 ≤ (1 : ℤ) ∧ (1 : ℤ) < ((2 : ℕ) : ℤ) ∧ 0 ≤ (1 : ℤ) ∧ (1 : ℤ) < ((2 : ℕ) : ℤ) ∧
      0 ≤ (1 : ℤ) ∧ (1 : ℤ) < ((2 : ℕ) : ℤ)) :=
  ⟨by decide, (C2_bounds_nodup ⟨ShapeType.Cube, 2, 2, 2⟩).1 ((1 : ℤ), (1 : ℤ), (1 : ℤ))
    (by decide)⟩

/-- C3: every generator output is a subsequence of the canonical
x-slowest/z-fastest grid enumeration, hence strictly increasing in
lexicographic (x,y,z) order; and the 2×1×1 Cube gives exactly
[(0,0,0),(1,0,0)] in that order. -/
theorem C3_lex_order :
    (∀ s : Shape,
      (generate_shape s).Sublist ((gridCells s.width s.height s.depth).map castCell) ∧
      List.Pairwise cellLtZ (generate_shape s)) ∧
    generate_shape ⟨ShapeType.Cube, 2, 1, 1⟩ = [(0, 0, 0), (1, 0, 0)] :=
  ⟨fun s => ⟨generate_shape_sublist s, generate_shape_pairwise s⟩, by decide⟩

theorem gridCells_eq_nil {w h d : ℕ} (hz : w = 0 ∨ h = 0 ∨ d = 0) :
    gridCells w h d = [] := by
  apply List.length_eq_zero.mp
  rw [length_gridCells]
  rcases hz with rfl | rfl | rfl <;> simp

/-- C4: `generate_shape` is total, and any zero dimension yields the
empty sequence for every kind (in particular height 0 for Cone and
SquarePyramid, whose division `y/height` is consequently never evaluated
on any executed loop iteration). -/
theorem C4_zero_dims_empty (s : Shape)
    (h0 : s.width = 0 ∨ s.height = 0 ∨ s.depth = 0) : generate_shape s = [] := by
  rcases s with ⟨t, w, h, d⟩
  have hmin : w = 0 ∨ min 1 h = 0 ∨ d = 0 := by
    rcases h0 with rfl | rfl | rfl
    · exact Or.inl rfl
    · exact Or.inr (Or.inl (by simp))
    · exact Or.inr (Or.inr rfl)
  cases t
  case Circle =>
    simp only [generate_shape, generate_circle]
    rw [gridCells_eq_nil hmin]
    rfl
  all_goals
    simp only [generate_shape, generate_cube, generate_sphere, generate_cylinder,
      generate_cone, generate_square_pyramid]
    rw [gridCells_eq_nil h0]
    rfl

/-- C4 witness: Cone with height 0 returns the empty sequence. -/
theorem C4_zero_dims_empty_witness :
    ((⟨ShapeType.Cone, 3, 0, 3⟩ : Shape).width = 0 ∨
      (⟨ShapeType.Cone, 3, 0, 3⟩ : Shape).height = 0 ∨
      (⟨ShapeType.Cone, 3, 0, 3⟩ : Shape).depth = 0) ∧
    generate_shape ⟨ShapeType.Cone, 3, 0, 3⟩ = [] :=
  ⟨Or.inr (Or.inl rfl), C4_zero_dims_empty ⟨ShapeType.Cone, 3, 0, 3⟩ (Or.inr (Or.inl rfl))⟩

/-- C5: the export content is 3 leading comment lines (banner, shape
kind, dimensions, in that order) followed per voxel by its 8 "v" lines
immediately followed by its 12 "f" lines, for 3 + 20N lines in total. -/
theorem C5_export_structure (vd : VoxelData) :
    ∃ blocks : List (List String),
      export_to_obj vd = headerLines vd.shape ++ blocks.flatten ∧
      blocks.length = vd.voxels.length ∧
      (headerLines vd.shape).length = 3 ∧
      (∃ a b : String, headerLines vd.shape =
        ["# 3D Voxel Sculptor Export", "# Shape: " ++ a, "# Dimensions: " ++ b]) ∧
      (∀ b ∈ blocks, ∃ vl fl : List String, b = vl ++ fl ∧ vl.length = 8 ∧ fl.length = 12 ∧
        (∀ c ∈ vl, ∃ r, c = "v " ++ r) ∧ (∀ c ∈ fl, ∃ r, c = "f " ++ r)) ∧
      (export_to_obj vd).length = 3 + 20 * vd.voxels.length := by
  obtain ⟨blocks, h1, h2, h3⟩ := exportGo_blocks vd.shape vd.voxels 1
  refine ⟨blocks, ?_, h2, rfl, ⟨_, _, rfl⟩, ?_, ?_⟩
  · rw [export_to_obj, h1]
  · intro b hb
    obtain ⟨j, v, rfl⟩ := h3 b hb
    exact ⟨vertexLines vd.shape v, faceLines j, rfl, length_vertexLines _ _,
      length_faceLines _, fun c hc => mem_vertexLines hc, fun c hc => mem_faceLines hc⟩
  · rw [export_to_obj, List.length_append, length_exportGo]
    rfl

/-- C6: the twelve face lines emitted for the voxel at 0-based position
k are exactly `faceLines (8k+1)`, and every vertex index they reference
lies in the range 8k+1 .. 8k+8 of that voxel's own vertex block. -/
theorem C6_face_index_ranges (vd : VoxelData) (k : ℕ) (hk : k < vd.voxels.length) :
    (((export_to_obj vd).drop (3 + 20 * k)).drop 8).take 12 = faceLines (8 * k + 1) ∧
    ∀ t ∈ faceTriples (8 * k + 1),
      8 * k + 1 ≤ t.1 ∧ t.1 ≤ 8 * k + 8 ∧
      8 * k + 1 ≤ t.2.1 ∧ t.2.1 ≤ 8 * k + 8 ∧
      8 * k + 1 ≤ t.2.2 ∧ t.2.2 ≤ 8 * k + 8 := by
  constructor
  · have h1 : (export_to_obj vd).drop (3 + 20 * k) =
        (exportGo vd.shape 1 vd.voxels).drop (20 * k) := by
      rw [export_to_obj, show 3 + 20 * k = (headerLines vd.shape).length + 20 * k from rfl,
        List.drop_append]
    rw [h1, exportGo_drop vd.shape vd.voxels k 1 hk, voxelBlock, List.append_assoc,
      List.drop_left' (length_vertexLines _ _), List.take_left' (length_faceLines _)]
    congr 1
    omega
  · intro t ht
    simp only [faceTriples, List.mem_cons, List.not_mem_nil, or_false] at ht
    rcases ht with rfl | rfl | rfl | rfl | rfl | rfl | rfl | rfl | rfl | rfl | rfl | rfl <;>
      dsimp only <;> omega

/-- C6 witness: the one-voxel unit cube model at k = 0. -/
theorem C6_face_index_ranges_witness :
    ((((export_to_obj ⟨⟨ShapeType.Cube, 1, 1, 1⟩, [(0, 0, 0)]⟩).drop (3 + 20 * 0)).drop 8).take 12
        = faceLines (8 * 0 + 1) ∧
      ∀ t ∈ faceTriples (8 * 0 + 1),
        8 * 0 + 1 ≤ t.1 ∧ t.1 ≤ 8 * 0 + 8 ∧
        8 * 0 + 1 ≤ t.2.1 ∧ t.2.1 ≤ 8 * 0 + 8 ∧
        8 * 0 + 1 ≤ t.2.2 ∧ t.2.2 ≤ 8 * 0 + 8) :=
  C6_face_index_ranges ⟨⟨ShapeType.Cube, 1, 1, 1⟩, [(0, 0, 0)]⟩ 0 (by decide)

/-- C8: the 1×1×1 Cube rasterizes to [(0,0,0)], the exporter's centering
offset — a function of the model dimensions only — is (0.5,0.5,0.5), and
the first vertex line of the export content is exactly
"v -0.5 -0.5 -0.5". -/
theorem C8_unit_cube_export :
    generate_shape ⟨ShapeType.Cube, 1, 1, 1⟩ = [(0, 0, 0)] ∧
    exportOffset ⟨ShapeType.Cube, 1, 1, 1⟩ = (1 / 2, 1 / 2, 1 / 2) ∧
    (export_to_obj ⟨⟨ShapeType.Cube, 1, 1, 1⟩,
      generate_shape ⟨ShapeType.Cube, 1, 1, 1⟩⟩).getD 3 "" = "v -0.5 -0.5 -0.5" := by
  refine ⟨by decide, by norm_num [exportOffset, Prod.ext_iff], ?_⟩
  have hg : generate_shape ⟨ShapeType.Cube, 1, 1, 1⟩ = [(0, 0, 0)] := by decide
  rw [export_to_obj, hg]
  simp only [exportGo, voxelBlock, headerLines, shapeTypeName, vertexLines, vertexOffsets,
    exportOffset, List.map_cons, List.map_nil, List.cons_append, List.nil_append,
    List.append_nil, List.getD_cons_succ, List.getD_cons_zero]
  have he : ((0 : ℤ) : ℚ) - ((1 : ℕ) : ℚ) / 2 + 0 = -(1 / 2) := by norm_num
  rw [he, vLine]
  have hden : (-(1 / 2 : ℚ)).den = 2 := by norm_num
  have hnum : (-(1 / 2 : ℚ)).num = -1 := by norm_num
  have hneg : (-(1 / 2 : ℚ)) < 0 := by norm_num
  simp only [fmtHalf, hden, hnum, hneg, if_true, if_false]
  decide

/-! ### Pyramid bound lemmas and membership characterizations -/

theorem mem_generate_filter {pred : ℕ × ℕ × ℕ → Bool} {w h d x y z : ℕ} :
    castCell (x, y, z) ∈ ((gridCells w h d).filter pred).map castCell ↔
      (x < w ∧ y < h ∧ z < d) ∧ pred (x, y, z) = true := by
  rw [List.mem_map]
  constructor
  · rintro ⟨c, hc, hcast⟩
    obtain rfl := castCell_injective hcast
    rw [List.mem_filter] at hc
    exact ⟨mem_gridCells.mp hc.1, hc.2⟩
  · rintro ⟨hb, hp⟩
    exact ⟨(x, y, z), List.mem_filter.mpr ⟨mem_gridCells.mpr hb, hp⟩, rfl⟩

set_option maxRecDepth 20000 in
set_option maxHeartbeats 1000000 in
/-- The base-layer half-extent, ceil(w/2) in exact f32 arithmetic, is
positive for every positive admissible width and height. -/
theorem widthBound_zero_pos : ∀ w < 33, ∀ h < 33, 0 < w → 0 < widthBound w h 0 := by
  decide

/-- C7 (amended): with height > 0, a grid cell (x,y,z) is in the
SquarePyramid output iff x and z lie in the half-open bands around the
integer-division center cells, with saturating lower bounds, where the
half-extents are the ones the program computes in f32 arithmetic
(`widthBound`) — not the exact-rational ceilings of the spec's formula,
which differ at e.g. (12,6,y=5); for width=depth=height=5 the
half-extents are 3 at y=0 and 1 at y=4, and they never increase from
layer to layer. -/
theorem C7_pyramid_characterization (w h d x y z : ℕ)
    (hh : 0 < h) (hx : x < w) (hy : y < h) (hz : z < d) :
    (((x : ℤ), (y : ℤ), (z : ℤ)) ∈ generate_shape ⟨ShapeType.SquarePyramid, w, h, d⟩ ↔
      (w / 2 - widthBound w h y ≤ x ∧ x < w / 2 + widthBound w h y ∧
       d / 2 - widthBound d h y ≤ z ∧ z < d / 2 + widthBound d h y)) ∧
    widthBound 5 5 0 = 3 ∧ widthBound 5 5 4 = 1 ∧
    (∀ y₁ y₂ : ℕ, y₁ ≤ y₂ → y₂ < 5 → widthBound 5 5 y₂ ≤ widthBound 5 5 y₁) := by
  refine ⟨?_, by decide, by decide, ?_⟩
  · have hgen : generate_shape ⟨ShapeType.SquarePyramid, w, h, d⟩ =
        ((gridCells w h d).filter fun c =>
          squarePyramidPred ⟨ShapeType.SquarePyramid, w, h, d⟩ c.1 c.2.1 c.2.2).map castCell :=
      rfl
    rw [hgen, show (((x : ℤ), (y : ℤ), (z : ℤ)) : ℤ × ℤ × ℤ) = castCell (x, y, z) from rfl,
      mem_generate_filter]
    simp only [squarePyramidPred, decide_eq_true_eq]
    constructor
    · rintro ⟨-, hp⟩
      exact hp
    · intro hp
      exact ⟨⟨hx, hy, hz⟩, hp⟩
  · intro y₁ y₂ h1 h2
    exact (by decide : ∀ b < 5, ∀ a < 5, a ≤ b → widthBound 5 5 b ≤ widthBound 5 5 a)
      y₂ h2 y₁ (by omega) h1

/-- C7 witness: the 5×5×5 pyramid at cell (2,0,2), hypotheses discharged. -/
theorem C7_pyramid_characterization_witness :
    ((0 : ℕ) < 5 ∧ (2 : ℕ) < 5) ∧
    (((((2 : ℕ) : ℤ), ((0 : ℕ) : ℤ), ((2 : ℕ) : ℤ)) ∈
        generate_shape ⟨ShapeType.SquarePyramid, 5, 5, 5⟩ ↔
      (5 / 2 - widthBound 5 5 0 ≤ 2 ∧ 2 < 5 / 2 + widthBound 5 5 0 ∧
       5 / 2 - widthBound 5 5 0 ≤ 2 ∧ 2 < 5 / 2 + widthBound 5 5 0)) ∧
     widthBound 5 5 0 = 3 ∧ widthBound 5 5 4 = 1 ∧
     (∀ y₁ y₂ : ℕ, y₁ ≤ y₂ → y₂ < 5 → widthBound 5 5 y₂ ≤ widthBound 5 5 y₁)) :=
  ⟨⟨by norm_num, by norm_num⟩,
    C7_pyramid_characterization 5 5 5 2 0 2 (by norm_num) (by norm_num) (by norm_num)
      (by norm_num)⟩

/-- C7 counterexample: the claim's exact-rational characterization is
false of the program.  For the 12×6×12 pyramid at y = 5 the f32 code
computes half-extent 2 (fl(5/6) < 5/6 pushes 12·height_factor/2 to
1 + 2^-23, whose ceiling is 2), while the exact formula gives
ceil(12·(1 - 5/6)/2) = ceil(1) = 1; hence the program includes cell
(4,5,5), which lies outside the claimed band [6-1, 6+1). -/
theorem C7_pyramid_characterization_counterexample :
    ((4 : ℤ), (5 : ℤ), (5 : ℤ)) ∈ generate_shape ⟨ShapeType.SquarePyramid, 12, 6, 12⟩ ∧
    widthBound 12 6 5 = 2 ∧ widthBoundSpec 12 6 5 = 1 ∧
    ¬(12 / 2 - widthBoundSpec 12 6 5 ≤ 4 ∧ 4 < 12 / 2 + widthBoundSpec 12 6 5) := by
  have hspec : widthBoundSpec 12 6 5 = 1 := by
    rw [widthBoundSpec]
    norm_num
  refine ⟨?_, by decide, hspec, ?_⟩
  · have hgen : generate_shape ⟨ShapeType.SquarePyramid, 12, 6, 12⟩ =
        ((gridCells 12 6 12).filter fun c =>
          squarePyramidPred ⟨ShapeType.SquarePyramid, 12, 6, 12⟩ c.1 c.2.1 c.2.2).map castCell :=
      rfl
    rw [hgen, show (((4 : ℤ), (5 : ℤ), (5 : ℤ)) : ℤ × ℤ × ℤ) = castCell (4, 5, 5) from rfl,
      mem_generate_filter]
    exact ⟨⟨by norm_num, by norm_num, by norm_num⟩, by decide⟩
  · rw [hspec]
    decide

/-- C9: the duplicate rasterizer embedded in the application entry point
(cell-center sampling) and the module rasterizer (grid-index sampling)
disagree on at least one in-range grid cell: for the Cone with
dimensions 5×2×5, cell (0,0,1) is included by the module path but
rejected by the entry-point path. -/
theorem C9_paths_diverge :
    ∃ w h d x y z : ℕ,
      1 ≤ w ∧ w ≤ 32 ∧ 1 ≤ h ∧ h ≤ 32 ∧ 1 ≤ d ∧ d ≤ 32 ∧
      x < w ∧ y < h ∧ z < d ∧
      ((x : ℤ), (y : ℤ), (z : ℤ)) ∈ generate_shape ⟨ShapeType.Cone, w, h, d⟩ ∧
      mainConeIncl w h d x y z = false := by
  refine ⟨5, 2, 5, 0, 0, 1, by norm_num, by norm_num, by norm_num, by norm_num, by norm_num,
    by norm_num, by norm_num, by norm_num, by norm_num, ?_, ?_⟩
  · have hgen : generate_shape ⟨ShapeType.Cone, 5, 2, 5⟩ =
        ((gridCells 5 2 5).filter fun c =>
          conePred ⟨ShapeType.Cone, 5, 2, 5⟩ c.1 c.2.1 c.2.2).map castCell := rfl
    rw [hgen, show ((((0 : ℕ) : ℤ), ((0 : ℕ) : ℤ), ((1 : ℕ) : ℤ)) : ℤ × ℤ × ℤ) =
      castCell (0, 0, 1) from rfl, mem_generate_filter]
    refine ⟨⟨by norm_num, by norm_num, by norm_num⟩, ?_⟩
    simp only [conePred, decide_eq_true_eq]
    norm_num
  · simp only [mainConeIncl]
    norm_num

/-- Bound used for the near-center cell: at index `(n-1)/2` the
normalized squared offset of the grid-index sampling is at most 1/4 for
every positive dimension `n`. -/
theorem centerSq_le (n : ℕ) (hn : 1 ≤ n) :
    ((((n - 1) / 2 : ℕ) : ℚ) - ((n : ℚ) - 1) / 2) / ((n : ℚ) / 2) *
      (((((n - 1) / 2 : ℕ) : ℚ) - ((n : ℚ) - 1) / 2) / ((n : ℚ) / 2)) ≤ 1 / 4 := by
  rcases Nat.even_or_odd n with ⟨k, hk⟩ | ⟨k, hk⟩
  · subst hk
    have hk1 : 1 ≤ k := by omega
    have hdiv : (k + k - 1) / 2 = k - 1 := by omega
    rw [hdiv]
    have hc1 : ((k - 1 : ℕ) : ℚ) = (k : ℚ) - 1 := by
      rw [Nat.cast_sub hk1]
      norm_num
    have hc2 : ((k + k : ℕ) : ℚ) = (k : ℚ) + (k : ℚ) := by push_cast ; ring
    rw [hc1, hc2]
    have hq : (1 : ℚ) ≤ (k : ℚ) := by exact_mod_cast hk1
    have hq0 : (0 : ℚ) < (k : ℚ) := by linarith
    have e : ((k : ℚ) - 1 - ((k : ℚ) + (k : ℚ) - 1) / 2) / (((k : ℚ) + (k : ℚ)) / 2) =
        -(1 / (2 * (k : ℚ))) := by
      field_simp
      ring
    rw [e]
    have h1 : 1 / (2 * (k : ℚ)) ≤ 1 / 2 := by
      rw [div_le_div_iff (by positivity) (by norm_num)]
      linarith
    have h2 : (0 : ℚ) ≤ 1 / (2 * (k : ℚ)) := by positivity
    nlinarith
  · subst hk
    have hdiv : (2 * k + 1 - 1) / 2 = k := by omega
    rw [hdiv]
    have hc2 : ((2 * k + 1 : ℕ) : ℚ) = 2 * (k : ℚ) + 1 := by push_cast ; ring
    rw [hc2]
    have e : ((k : ℚ) - (2 * (k : ℚ) + 1 - 1) / 2) = 0 := by ring
    rw [e]
    norm_num

/-- C10: for every kind and all dimensions in [1,32], the rasterizer
output is non-empty — a near-center cell always passes the inclusion
test, so the warn-on-empty path is unreachable for in-range input. -/
theorem C10_nonempty (t : ShapeType) (w h d : ℕ)
    (hw1 : 1 ≤ w) (hw2 : w ≤ 32) (hh1 : 1 ≤ h) (hh2 : h ≤ 32)
    (hd1 : 1 ≤ d) (hd2 : d ≤ 32) :
    generate_shape ⟨t, w, h, d⟩ ≠ [] := by
  cases t
  case Cube =>
    apply List.ne_nil_of_mem
    show castCell (0, 0, 0) ∈ generate_shape ⟨ShapeType.Cube, w, h, d⟩
    exact List.mem_map_of_mem castCell
      (show ((0 : ℕ), (0 : ℕ), (0 : ℕ)) ∈ gridCells w h d from
        mem_gridCells.mpr ⟨by omega, by omega, by omega⟩)
  case Sphere =>
    apply List.ne_nil_of_mem
    show castCell ((w - 1) / 2, (h - 1) / 2, (d - 1) / 2) ∈
      ((gridCells w h d).filter fun c =>
        spherePred ⟨ShapeType.Sphere, w, h, d⟩ c.1 c.2.1 c.2.2).map castCell
    have hp : spherePred ⟨ShapeType.Sphere, w, h, d⟩ ((w - 1) / 2) ((h - 1) / 2) ((d - 1) / 2)
        = true := by
      simp only [spherePred, decide_eq_true_eq]
      have hx := centerSq_le w hw1
      have hy := centerSq_le h hh1
      have hz := centerSq_le d hd1
      linarith
    exact mem_generate_filter.mpr ⟨⟨by omega, by omega, by omega⟩, hp⟩
  case Circle =>
    apply List.ne_nil_of_mem
    show castCell ((w - 1) / 2, 0, (d - 1) / 2) ∈
      ((gridCells w (min 1 h) d).filter fun c =>
        circleXZPred ⟨ShapeType.Circle, w, h, d⟩ c.1 c.2.2).map castCell
    have hp : circleXZPred ⟨ShapeType.Circle, w, h, d⟩ ((w - 1) / 2) ((d - 1) / 2) = true := by
      simp only [circleXZPred, decide_eq_true_eq]
      have hx := centerSq_le w hw1
      have hz := centerSq_le d hd1
      linarith
    exact mem_generate_filter.mpr ⟨⟨by omega, by omega, by omega⟩, hp⟩
  case Cylinder =>
    apply List.ne_nil_of_mem
    show castCell ((w - 1) / 2, 0, (d - 1) / 2) ∈
      ((gridCells w h d).filter fun c =>
        circleXZPred ⟨ShapeType.Cylinder, w, h, d⟩ c.1 c.2.2).map castCell
    have hp : circleXZPred ⟨ShapeType.Cylinder, w, h, d⟩ ((w - 1) / 2) ((d - 1) / 2) = true := by
      simp only [circleXZPred, decide_eq_true_eq]
      have hx := centerSq_le w hw1
      have hz := centerSq_le d hd1
      linarith
    exact mem_generate_filter.mpr ⟨⟨by omega, by omega, by omega⟩, hp⟩
  case Cone =>
    apply List.ne_nil_of_mem
    show castCell ((w - 1) / 2, 0, (d - 1) / 2) ∈
      ((gridCells w h d).filter fun c =>
        conePred ⟨ShapeType.Cone, w, h, d⟩ c.1 c.2.1 c.2.2).map castCell
    have hp : conePred ⟨ShapeType.Cone, w, h, d⟩ ((w - 1) / 2) 0 ((d - 1) / 2) = true := by
      simp only [conePred, decide_eq_true_eq]
      have hf1 : (1 : ℚ) - ((0 : ℕ) : ℚ) / ((h : ℕ) : ℚ) = 1 := by norm_num
      rw [hf1, one_mul]
      have hx := centerSq_le w hw1
      have hz := centerSq_le d hd1
      linarith
    exact mem_generate_filter.mpr ⟨⟨by omega, by omega, by omega⟩, hp⟩
  case SquarePyramid =>
    apply List.ne_nil_of_mem
    show castCell (w / 2, 0, d / 2) ∈
      ((gridCells w h d).filter fun c =>
        squarePyramidPred ⟨ShapeType.SquarePyramid, w, h, d⟩ c.1 c.2.1 c.2.2).map castCell
    have hp : squarePyramidPred ⟨ShapeType.SquarePyramid, w, h, d⟩ (w / 2) 0 (d / 2) = true := by
      simp only [squarePyramidPred, decide_eq_true_eq]
      have hwb := widthBound_zero_pos w (by omega) h (by omega) (by omega)
      have hdb := widthBound_zero_pos d (by omega) h (by omega) (by omega)
      omega
    exact mem_generate_filter.mpr ⟨⟨by omega, by omega, by omega⟩, hp⟩

/-- C10 witness: the 3×3×3 sphere is non-empty. -/
theorem C10_nonempty_witness :
    ((1 : ℕ) ≤ 3 ∧ (3 : ℕ) ≤ 32) ∧
    generate_shape ⟨ShapeType.Sphere, 3, 3, 3⟩ ≠ [] :=
  ⟨⟨by norm_num, by norm_num⟩,
    C10_nonempty ShapeType.Sphere 3 3 3 (by norm_num) (by norm_num) (by norm_num)
      (by norm_num) (by norm_num) (by norm_num)⟩
